import Mathlib

/-!
Verification development for the escape-logs-analyzer repository.

The Python sources under src/app are shallowly embedded below:

* Python str values are Lean String values; the handful of str methods the
  sources use (split, startswith, endswith, upper, lower, the in operator,
  len) are modelled over the underlying character list.  The models cover
  the exact call sites of the sources; ASCII case mapping is used, and the
  int constructor is modelled for an optional sign followed by decimal
  digits, which covers every value reachable from the call sites (the size
  filter splits its argument on the dash character first).
* Exceptions are modelled with Except PyErr; code that cannot raise stays
  in Bool or pure values.
* The re module is modelled by a parser for the pattern sub-language the
  sources can receive plus a Brzozowski-derivative matcher.  Patterns using
  anchors, brace quantifiers interpreted as quantifiers, group extensions
  or backreferences are outside the modelled subset and map to a parse
  error; every pattern that the model accepts is matched with the standard
  regular-expression semantics, and bool(re.search(p, s)) is modelled as
  "some substring of s matches p".  Invalid patterns such as an unclosed
  character class are parse errors exactly as in re.compile.
* json.loads is modelled by a small JSON reader into a PyVal type; numbers
  keep their source text since no code path computes with them.
* pydantic validation of the Exchange model is modelled by a constructor
  that fails when a required field is absent; float fields are carried at
  exact precision (Rat) since no specified property computes with them.
-/

namespace EL

/-- Python exception classes that can escape the embedded call sites. -/
inductive PyErr where
  | keyError
  | valueError
  | typeError
  | attributeError
  | indexError
  | regexError
  | validationError
  | shlexError
  deriving DecidableEq, Repr

/-- Split a character list on a separator character; Python
    s.split(sep) for a one-character sep (no maxsplit). -/
def splitC (sep : Char) : List Char → List (List Char)
  | [] => [[]]
  | c :: rest =>
    match splitC sep rest with
    | [] => [[]]
    | g :: gs => if c = sep then [] :: g :: gs else (c :: g) :: gs

/-- Python s.split(sep) for a one-character separator, on String. -/
def pySplit (s : String) (sep : Char) : List String :=
  (splitC sep s.data).map String.mk

/-- Python s.split(sep, 1): the text before the first separator and,
    when the separator occurs, the text after it. -/
def pySplit1 (s : String) (sep : Char) : String × Option String :=
  match splitC sep s.data with
  | [] => (s, none)
  | g :: gs =>
    match gs with
    | [] => (String.mk g, none)
    | _ => (String.mk g, some (String.mk (List.intercalate [sep] gs)))

/-- Contiguous-sublist test over character lists. -/
def containsSub (sub : List Char) : List Char → Bool
  | [] => sub.isEmpty
  | c :: t => List.isPrefixOf sub (c :: t) || containsSub sub t

/-- Python membership test sub in s on strings (substring containment). -/
def pyIn (sub s : String) : Bool :=
  containsSub sub.data s.data

/-- Python s.upper() (ASCII case mapping). -/
def pyUpper (s : String) : String :=
  String.mk (s.data.map Char.toUpper)

/-- Python s.lower() (ASCII case mapping). -/
def pyLower (s : String) : String :=
  String.mk (s.data.map Char.toLower)

/-- Python s.startswith(p). -/
def pyStartsWith (s p : String) : Bool :=
  List.isPrefixOf p.data s.data

/-- Python s.endswith(p). -/
def pyEndsWith (s p : String) : Bool :=
  List.isSuffixOf p.data s.data

/-- Python s[1:]. -/
def pyDropOne (s : String) : String :=
  String.mk (s.data.drop 1)

/-- Python len(s). -/
def pyLen (s : String) : Nat :=
  s.data.length

/-- Python str.join: sep.join(parts). -/
def pyJoin (sep : String) (parts : List String) : String :=
  String.mk (List.intercalate sep.data (parts.map String.data))

def digitsVal (cs : List Char) : Nat :=
  cs.foldl (fun acc c => acc * 10 + (c.toNat - 48)) 0

/-- Python int(s) as a partial function: an optional sign followed by at
    least one decimal digit parses, anything else raises ValueError. -/
def pyInt (s : String) : Option Int :=
  let core : List Char → Option Nat := fun cs =>
    if cs ≠ [] ∧ cs.all Char.isDigit then some (digitsVal cs) else none
  match s.data with
  | '-' :: rest => (core rest).map (fun n => -(n : Int))
  | '+' :: rest => (core rest).map (fun n => (n : Int))
  | cs => (core cs).map (fun n => (n : Int))

/-- Python str(i) for an int. -/
def pyStrInt (i : Int) : String :=
  toString i

/-! ## Model of the re module (for _filter_by_url)

A pattern is parsed into the regular-expression syntax below; matching uses
Brzozowski derivatives.  bool(re.search(p, s)) is modelled as: some
contiguous substring of s (possibly empty) matches the parsed pattern. -/

/-- One entry of a character class: a single character or a range. -/
inductive ReClassItem where
  | single (c : Char)
  | range (lo hi : Char)
  deriving DecidableEq, Repr

/-- An atom: a literal character, the dot wildcard, or a character class
    (possibly negated). -/
inductive ReAtom where
  | lit (c : Char)
  | any
  | cls (neg : Bool) (items : List ReClassItem)
  deriving DecidableEq, Repr

/-- Regular expressions produced by the pattern parser. -/
inductive Re where
  | empty
  | eps
  | atom (a : ReAtom)
  | seq (r1 r2 : Re)
  | alt (r1 r2 : Re)
  | star (r : Re)
  deriving DecidableEq, Repr

def classItemMatch (c : Char) : ReClassItem → Bool
  | .single d => c = d
  | .range lo hi => lo ≤ c ∧ c ≤ hi

def atomMatch (a : ReAtom) (c : Char) : Bool :=
  match a with
  | .lit d => c = d
  | .any => c ≠ '\n'
  | .cls neg items =>
    let hit := items.any (classItemMatch c)
    if neg then !hit else hit

/-- Does the regular expression accept the empty string. -/
def Re.nullable : Re → Bool
  | .empty => false
  | .eps => true
  | .atom _ => false
  | .seq r1 r2 => r1.nullable && r2.nullable
  | .alt r1 r2 => r1.nullable || r2.nullable
  | .star _ => true

/-- Brzozowski derivative of a regular expression by a character. -/
def Re.deriv : Re → Char → Re
  | .empty, _ => .empty
  | .eps, _ => .empty
  | .atom a, c => if atomMatch a c then .eps else .empty
  | .seq r1 r2, c =>
    if r1.nullable then .alt (.seq (r1.deriv c) r2) (r2.deriv c)
    else .seq (r1.deriv c) r2
  | .alt r1 r2, c => .alt (r1.deriv c) (r2.deriv c)
  | .star r, c => .seq (r.deriv c) (.star r)

/-- Does some prefix of the character list match the expression. -/
def rePrefixMatch (r : Re) : List Char → Bool
  | [] => r.nullable
  | c :: rest => r.nullable || rePrefixMatch (r.deriv c) rest

/-- bool(re.search(r, s)): some substring (at any start position) matches. -/
def reSearch (r : Re) : List Char → Bool
  | [] => r.nullable
  | c :: rest => rePrefixMatch r (c :: rest) || reSearch r rest

/-- Shorthand character classes for the escape sequences the parser
    understands: d, D, w, W, s, S. -/
def escClassItems : Char → Option (Bool × List ReClassItem)
  | 'd' => some (false, [.range '0' '9'])
  | 'D' => some (true, [.range '0' '9'])
  | 'w' => some (false, [.range 'a' 'z', .range 'A' 'Z', .range '0' '9', .single '_'])
  | 'W' => some (true, [.range 'a' 'z', .range 'A' 'Z', .range '0' '9', .single '_'])
  | 's' => some (false, [.single ' ', .single '\t', .single '\n',
      .single '\x0b', .single '\x0c', .single '\r'])
  | 'S' => some (true, [.single ' ', .single '\t', .single '\n',
      .single '\x0b', .single '\x0c', .single '\r'])
  | _ => none

/-- Escapes usable as a single literal character (punctuation and the
    common control escapes).  Alphanumeric escapes that are not shorthand
    classes are rejected like re.compile rejects bad escapes. -/
def escLit : Char → Option Char
  | 'n' => some '\n'
  | 't' => some '\t'
  | 'r' => some '\r'
  | 'f' => some '\x0c'
  | 'v' => some '\x0b'
  | 'a' => some '\x07'
  | c => if c.isAlphanum then none else some c

/-- Parse the body of a character class after the opening bracket and an
    optional negation marker, up to the closing bracket. -/
def parseClassBody (fuel : Nat) (first : Bool) (cs : List Char) :
    Except PyErr (List ReClassItem × List Char) :=
  match fuel with
  | 0 => .error .regexError
  | fuel + 1 =>
    match cs with
    | [] => .error .regexError
    | ']' :: rest =>
      if first then
        match parseClassBody fuel false rest with
        | .ok (items, rem) => .ok (.single ']' :: items, rem)
        | .error e => .error e
      else .ok ([], rest)
    | '\\' :: e :: rest =>
      (match escClassItems e with
       | some (false, items) =>
         match parseClassBody fuel false rest with
         | .ok (more, rem) => .ok (items ++ more, rem)
         | .error err => .error err
       | some (true, _) => .error .regexError
       | none =>
         match escLit e with
         | some c =>
           match parseClassBody fuel false rest with
           | .ok (more, rem) => .ok (.single c :: more, rem)
           | .error err => .error err
         | none => .error .regexError)
    | '\\' :: [] => .error .regexError
    | c :: '-' :: d :: rest =>
      if d = ']' then
        match parseClassBody fuel false (']' :: rest) with
        | .ok (more, rem) => .ok (.single c :: .single '-' :: more, rem)
        | .error err => .error err
      else if c ≤ d then
        match parseClassBody fuel false rest with
        | .ok (more, rem) => .ok (.range c d :: more, rem)
        | .error err => .error err
      else .error .regexError
    | c :: rest =>
      match parseClassBody fuel false rest with
      | .ok (more, rem) => .ok (.single c :: more, rem)
      | .error err => .error err

/-- Apply a repetition operator to an atom. -/
def applyRepeat (op : Char) (r : Re) : Re :=
  if op = '*' then .star r
  else if op = '+' then .seq r (.star r)
  else .alt r .eps

mutual

/-- Parse an alternation (the whole pattern or a group body). -/
def parseAlt (fuel : Nat) (cs : List Char) : Except PyErr (Re × List Char) :=
  match fuel with
  | 0 => .error .regexError
  | fuel + 1 => do
    let (r, rest) ← parseSeq fuel cs
    match rest with
    | '|' :: t => do
      let (r2, rest2) ← parseAlt fuel t
      pure (.alt r r2, rest2)
    | _ => pure (r, rest)

/-- Parse a concatenation, stopping at an alternation bar, a closing
    parenthesis or the end of the pattern. -/
def parseSeq (fuel : Nat) (cs : List Char) : Except PyErr (Re × List Char) :=
  match fuel with
  | 0 => .error .regexError
  | fuel + 1 =>
    match cs with
    | [] => .ok (.eps, [])
    | ')' :: _ => .ok (.eps, cs)
    | '|' :: _ => .ok (.eps, cs)
    | _ => do
      let (a, rest) ← parseAtomPost fuel cs
      let (r2, rest2) ← parseSeq fuel rest
      pure (.seq a r2, rest2)

/-- Parse one atom together with an optional repetition operator and an
    optional lazy marker; stacked repetitions are a pattern error. -/
def parseAtomPost (fuel : Nat) (cs : List Char) : Except PyErr (Re × List Char) :=
  match fuel with
  | 0 => .error .regexError
  | fuel + 1 => do
    let (a, rest) ← parseAtom fuel cs
    match rest with
    | op :: t =>
      if op = '*' ∨ op = '+' ∨ op = '?' then
        let r := applyRepeat op a
        match t with
        | '?' :: t2 =>
          (match t2 with
           | c2 :: _ =>
             if c2 = '*' ∨ c2 = '+' ∨ c2 = '?' then .error .regexError
             else .ok (r, t2)
           | [] => .ok (r, t2))
        | c2 :: _ =>
          if c2 = '*' ∨ c2 = '+' then .error .regexError
          else .ok (r, t)
        | [] => .ok (r, t)
      else .ok (a, rest)
    | [] => .ok (a, rest)

/-- Parse a single atom: group, class, escape, wildcard or literal. -/
def parseAtom (fuel : Nat) (cs : List Char) : Except PyErr (Re × List Char) :=
  match fuel with
  | 0 => .error .regexError
  | fuel + 1 =>
    match cs with
    | [] => .error .regexError
    | '(' :: '?' :: _ => .error .regexError
    | '(' :: rest => do
      let (r, rest2) ← parseAlt fuel rest
      match rest2 with
      | ')' :: t => pure (r, t)
      | _ => .error .regexError
    | '[' :: rest =>
      let (neg, body) :=
        match rest with
        | '^' :: t => (true, t)
        | _ => (false, rest)
      match parseClassBody (body.length + 2) true body with
      | .ok (items, rem) => .ok (.atom (.cls neg items), rem)
      | .error e => .error e
    | '\\' :: e :: rest =>
      (match escClassItems e with
       | some (neg, items) => .ok (.atom (.cls neg items), rest)
       | none =>
         match escLit e with
         | some c => .ok (.atom (.lit c), rest)
         | none => .error .regexError)
    | '\\' :: [] => .error .regexError
    | '.' :: rest => .ok (.atom .any, rest)
    | c :: rest =>
      if c = '*' ∨ c = '+' ∨ c = '?' then .error .regexError
      else if c = '^' ∨ c = '$' then .error .regexError
      else .ok (.atom (.lit c), rest)

end

/-- re.compile on the modelled pattern subset: parse the whole pattern,
    rejecting an unconsumed tail (an unbalanced closing parenthesis). -/
def reParse (p : String) : Except PyErr Re :=
  match parseAlt (8 * (p.data.length + 2)) p.data with
  | .ok (r, []) => .ok r
  | .ok (_, _) => .error .regexError
  | .error e => .error e

/-- bool(re.search(pattern, s)) with the pattern compiled first; a pattern
    outside the modelled subset or invalid is a raised re.error. -/
def reSearchStr (pattern s : String) : Except PyErr Bool :=
  match reParse pattern with
  | .ok r => .ok (reSearch r s.data)
  | .error e => .error e

/-! ## Model of json.loads (for _filter_by_name)

Python objects that json.loads can produce.  Numbers keep their source
text: no embedded code path computes with a parsed number. -/

inductive PyVal where
  | nil
  | bool (b : Bool)
  | num (raw : String)
  | str (s : String)
  | list (xs : List PyVal)
  | dict (kvs : List (String × PyVal))

def jsonWs (cs : List Char) : List Char :=
  cs.dropWhile (fun c => c = ' ' ∨ c = '\t' ∨ c = '\n' ∨ c = '\r')

def hexVal (c : Char) : Option Nat :=
  if '0' ≤ c ∧ c ≤ '9' then some (c.toNat - 48)
  else if 'a' ≤ c ∧ c ≤ 'f' then some (c.toNat - 87)
  else if 'A' ≤ c ∧ c ≤ 'F' then some (c.toNat - 55)
  else none

/-- Parse the body of a JSON string after the opening quote. -/
def parseJStr (fuel : Nat) (cs : List Char) : Option (List Char × List Char) :=
  match fuel with
  | 0 => none
  | fuel + 1 =>
    match cs with
    | [] => none
    | '"' :: rest => some ([], rest)
    | '\\' :: e :: rest =>
      (match e with
       | '"' => (parseJStr fuel rest).map (fun (s, r) => ('"' :: s, r))
       | '\\' => (parseJStr fuel rest).map (fun (s, r) => ('\\' :: s, r))
       | '/' => (parseJStr fuel rest).map (fun (s, r) => ('/' :: s, r))
       | 'n' => (parseJStr fuel rest).map (fun (s, r) => ('\n' :: s, r))
       | 't' => (parseJStr fuel rest).map (fun (s, r) => ('\t' :: s, r))
       | 'r' => (parseJStr fuel rest).map (fun (s, r) => ('\r' :: s, r))
       | 'b' => (parseJStr fuel rest).map (fun (s, r) => ('\x08' :: s, r))
       | 'f' => (parseJStr fuel rest).map (fun (s, r) => ('\x0c' :: s, r))
       | 'u' =>
         (match rest with
          | a :: b :: c :: d :: rest2 =>
            match hexVal a, hexVal b, hexVal c, hexVal d with
            | some ha, some hb, some hc, some hd =>
              let n := ((ha * 16 + hb) * 16 + hc) * 16 + hd
              (parseJStr fuel rest2).map (fun (s, r) => (Char.ofNat n :: s, r))
            | _, _, _, _ => none
          | _ => none)
       | _ => none)
    | '\\' :: [] => none
    | c :: rest => (parseJStr fuel rest).map (fun (s, r) => (c :: s, r))

/-- Parse a JSON number, keeping its raw text. -/
def parseJNum (cs : List Char) : Option (String × List Char) :=
  let (sign, cs1) :=
    match cs with
    | '-' :: t => (['-'], t)
    | _ => (([] : List Char), cs)
  let intPart := cs1.takeWhile Char.isDigit
  let cs2 := cs1.dropWhile Char.isDigit
  if intPart.isEmpty then none
  else
    let (fracPart, cs3) :=
      match cs2 with
      | '.' :: t =>
        let ds := t.takeWhile Char.isDigit
        if ds.isEmpty then (([] : List Char), cs2)
        else ('.' :: ds, t.dropWhile Char.isDigit)
      | _ => (([] : List Char), cs2)
    let (expPart, cs4) :=
      match cs3 with
      | e :: t =>
        if e = 'e' ∨ e = 'E' then
          let (sg, t2) :=
            match t with
            | s :: t2 => if s = '+' ∨ s = '-' then ([s], t2) else (([] : List Char), t)
            | [] => (([] : List Char), t)
          let ds := t2.takeWhile Char.isDigit
          if ds.isEmpty then (([] : List Char), cs3)
          else (e :: (sg ++ ds), t2.dropWhile Char.isDigit)
        else (([] : List Char), cs3)
      | [] => (([] : List Char), cs3)
    some (String.mk (sign ++ intPart ++ fracPart ++ expPart), cs4)

mutual

/-- Parse one JSON value. -/
def parseJVal (fuel : Nat) (cs : List Char) : Option (PyVal × List Char) :=
  match fuel with
  | 0 => none
  | fuel + 1 =>
    match jsonWs cs with
    | 'n' :: 'u' :: 'l' :: 'l' :: rest => some (.nil, rest)
    | 't' :: 'r' :: 'u' :: 'e' :: rest => some (.bool true, rest)
    | 'f' :: 'a' :: 'l' :: 's' :: 'e' :: rest => some (.bool false, rest)
    | '"' :: rest => (parseJStr (rest.length + 1) rest).map
        (fun (s, r) => (.str (String.mk s), r))
    | '[' :: rest =>
      (match jsonWs rest with
       | ']' :: rest2 => some (.list [], rest2)
       | _ => (parseJArr fuel rest).map (fun (xs, r) => (.list xs, r)))
    | '{' :: rest =>
      (match jsonWs rest with
       | '}' :: rest2 => some (.dict [], rest2)
       | _ => (parseJObj fuel rest).map (fun (kvs, r) => (.dict kvs, r)))
    | cs2 => (parseJNum cs2).map (fun (raw, r) => (.num raw, r))

/-- Parse the elements of a non-empty JSON array. -/
def parseJArr (fuel : Nat) (cs : List Char) : Option (List PyVal × List Char) :=
  match fuel with
  | 0 => none
  | fuel + 1 => do
    let (v, rest) ← parseJVal fuel cs
    match jsonWs rest with
    | ',' :: rest2 => (parseJArr fuel rest2).map (fun (xs, r) => (v :: xs, r))
    | ']' :: rest2 => some ([v], rest2)
    | _ => none

/-- Parse the members of a non-empty JSON object. -/
def parseJObj (fuel : Nat) (cs : List Char) : Option (List (String × PyVal) × List Char) :=
  match fuel with
  | 0 => none
  | fuel + 1 =>
    match jsonWs cs with
    | '"' :: rest =>
      (parseJStr (rest.length + 1) rest).bind (fun kp =>
        match jsonWs kp.2 with
        | ':' :: rest3 =>
          (parseJVal fuel rest3).bind (fun vp =>
            match jsonWs vp.2 with
            | ',' :: rest5 =>
              (parseJObj fuel rest5).map
                (fun op => ((String.mk kp.1, vp.1) :: op.1, op.2))
            | '}' :: rest5 => some ([(String.mk kp.1, vp.1)], rest5)
            | _ => none)
        | _ => none)
    | _ => none

end

/-- json.loads: parse a complete JSON document, requiring only trailing
    whitespace after the value. -/
def jsonLoads (s : String) : Option PyVal :=
  match parseJVal (s.data.length + 16) s.data with
  | some (v, rest) => if jsonWs rest = [] then some v else none
  | none => none

/-- Python dict.get(key, default) over a parsed JSON object; a duplicated
    key in the source text leaves the last binding in the dict. -/
def pyDictGet (kvs : List (String × PyVal)) (key : String) (default : PyVal) : PyVal :=
  match kvs.reverse.find? (fun kv => kv.1 = key) with
  | some kv => kv.2
  | none => default

/-- Is this PyVal the given Python string (Python == between a str and a
    value of another type is False). -/
def pvIsStr (v : PyVal) (s : String) : Bool :=
  match v with
  | .str t => t = s
  | _ => false

/-! ## Model of urllib.parse.urlparse(url).path (for extract_path_from_url) -/

/-- A scheme is an ASCII letter followed by letters, digits, plus, minus
    or dot, ending at the first colon. -/
def splitScheme (cs : List Char) : List Char :=
  let pre := cs.takeWhile (fun c => c ≠ ':' ∧ c ≠ '/' ∧ c ≠ '?' ∧ c ≠ '#')
  match cs.drop pre.length with
  | ':' :: rest =>
    match pre with
    | [] => cs
    | c0 :: more =>
      if c0.isAlpha ∧ more.all (fun c => c.isAlphanum ∨ c = '+' ∨ c = '-' ∨ c = '.')
      then rest else cs
  | _ => cs

/-- Split the parameters component from the last path segment, as the
    urlparse wrapper around urlsplit does. -/
def splitParams (cs : List Char) : List Char :=
  if cs.contains ';' then
    if cs.contains '/' then
      let segs := splitC '/' cs
      match segs.reverse with
      | [] => cs
      | lastSeg :: before =>
        let lastClean := lastSeg.takeWhile (fun c => c ≠ ';')
        List.intercalate ['/'] (before.reverse ++ [lastClean])
    else cs.takeWhile (fun c => c ≠ ';')
  else cs

/-- urlparse(url).path for the embedded call sites: drop the fragment,
    the scheme, the network location, the query and the parameters.  A
    network location with unbalanced square brackets raises ValueError. -/
def urlparsePath (url : String) : Except PyErr String :=
  let cs := url.data.takeWhile (fun c => c ≠ '#')
  let cs := splitScheme cs
  match cs with
  | '/' :: '/' :: rest =>
    let netloc := rest.takeWhile (fun c => c ≠ '/' ∧ c ≠ '?')
    if netloc.contains '[' ≠ netloc.contains ']' then .error .valueError
    else
      let tail0 := rest.drop netloc.length
      let path := tail0.takeWhile (fun c => c ≠ '?')
      .ok (String.mk (splitParams path))
  | _ =>
    let path := cs.takeWhile (fun c => c ≠ '?')
    .ok (String.mk (splitParams path))

/-- utils.extract_path_from_url: urlparse(url).path with any exception
    swallowed by returning the input unchanged. -/
def extractPathFromUrl (url : String) : String :=
  match urlparsePath url with
  | .ok p => p
  | .error _ => url

/-- utils.clean_content_type: collapse any application/json variant. -/
def cleanContentType (contentType : String) : String :=
  if pyStartsWith contentType "application/json" then "application/json"
  else contentType

/-! ## Record model (models.py) -/

/-- models.ParamLocation. -/
inductive ParamLocation where
  | path
  | query
  | header
  | body
  deriving DecidableEq, Repr

/-- models.ExchangeParameter: one header or parameter with its values and
    location. -/
structure ExchangeParameter where
  name : String
  values : List String
  loc : ParamLocation
  deriving DecidableEq, Repr

/-- models.InferredScalar. -/
structure InferredScalar where
  kind : String
  name : String
  confidence : Rat
  deriving DecidableEq, Repr

/-- models.Exchange: the typed record for one HTTP exchange.  method holds
    the uppercase HTTP method token; float fields are carried at exact
    precision. -/
structure Exchange where
  exchangeId : String
  path : String
  requestHeaders : List ExchangeParameter
  requestBody : Option String
  method : String
  url : String
  responseHeaders : List ExchangeParameter
  responseBody : String
  responseStatusCode : Int
  scanId : String
  curl : String
  duration : Rat
  coverage : String
  user : String
  requester : String
  inferredStatusCode : Int
  inferredScalars : List InferredScalar
  in_schema : Bool
  deriving DecidableEq, Repr

/-- First element of url.split(sep); a Python split result is never
    empty, so index 0 always exists. -/
def pySplitHead (s : String) (sep : Char) : String :=
  match pySplit s sep with
  | g :: _ => g
  | [] => ""

/-- The comprehension body of models.Exchange.queryParams: the ampersand
    separated parts of a query string that contain an equals sign, each
    split into the first two components of its equals split. -/
def queryPairs (q : String) : List ExchangeParameter :=
  (pySplit q '&').filterMap (fun param =>
    match pySplit param '=' with
    | a :: b :: _ => some { name := a, values := [b], loc := .query }
    | _ => none)

/-- models.Exchange.queryParams: parameters in the query string.  The
    source indexes url.split( question mark )[1] unconditionally, which
    raises IndexError when the URL has no question mark. -/
def Exchange.queryParams (e : Exchange) : Except PyErr (List ExchangeParameter) :=
  match (pySplit e.url '?').get? 1 with
  | none => .error .indexError
  | some q => .ok (queryPairs q)

/-- The group of the first match of the constant pattern
    backslash-brace ( [^brace]+ ) backslash-brace used by
    models.Exchange.pathParams: the run of non-closing-brace characters
    enclosed by braces, at the leftmost position where one exists. -/
def braceSearch : List Char → Option (List Char)
  | [] => none
  | '{' :: rest =>
    let run := rest.takeWhile (fun c => c ≠ '}')
    (match rest.dropWhile (fun c => c ≠ '}') with
     | '}' :: _ => if run.isEmpty then braceSearch rest else some run
     | _ => braceSearch rest)
  | _ :: rest => braceSearch rest

/-- models.Exchange.pathParams: align the placeholder segments of the
    normalized path against the URL path segments positionally. -/
def Exchange.pathParams (e : Exchange) : List ExchangeParameter :=
  let urlParts := pySplit (pySplitHead e.url '?') '/'
  let pathParts := pySplit e.path '/'
  (urlParts.zip pathParts).filterMap (fun up =>
    (braceSearch up.2.data).map (fun nm =>
      { name := String.mk nm, values := [up.1], loc := .path }))

/-- models.Exchange.content_type: the first response header named
    content-type decides the result; the values list is checked for the
    exact member application/json, otherwise the values are joined. -/
def Exchange.contentType (e : Exchange) : Option String :=
  match e.responseHeaders.find? (fun h => pyLower h.name = "content-type") with
  | some h =>
    if h.values.contains "application/json" then some "application/json"
    else some (pyJoin ", " h.values)
  | none => none

/-- models.LogsData.data: a Python dict from exchange id to exchange,
    modelled as an association list in insertion order. -/
def dictSet (m : List (String × Exchange)) (k : String) (v : Exchange) :
    List (String × Exchange) :=
  if m.any (fun kv => kv.1 = k) then
    m.map (fun kv => if kv.1 = k then (k, v) else kv)
  else m ++ [(k, v)]

/-- models.LogsData.add_exchange: dict assignment keyed by exchangeId. -/
def addExchange (m : List (String × Exchange)) (e : Exchange) :
    List (String × Exchange) :=
  dictSet m e.exchangeId e

/-! ## Filter engine (filters.py)

apply_filters receives the dict view of an Exchange (data.dict() at the
call sites), so every Exchange field is present under its field name and
any other key falls back to the default of dict.get. -/

/-- filters._is_inverted_filter: detect and strip the leading negation
    marker. -/
def isInvertedFilter (filterValue : String) : Bool × String :=
  if pyStartsWith filterValue "!" then (true, pyDropOne filterValue)
  else (false, filterValue)

/-- filters._apply_filter_with_inversion. -/
def applyFilterWithInversion (filterFunc : Exchange → String → Except PyErr Bool)
    (data : Exchange) (filterValue : String) : Except PyErr Bool :=
  let p := isInvertedFilter filterValue
  match filterFunc data p.2 with
  | .ok result => .ok (if p.1 then !result else result)
  | .error e => .error e

/-- data.get( operationName , default empty): the dict view of an Exchange
    has no operationName key, so the default is always returned. -/
def dataGetOperationName (_ : Exchange) : String := ""

/-- data.get( inferredScalarType , default empty): absent from the dict
    view of an Exchange, so the default is always returned. -/
def dataGetInferredScalarType (_ : Exchange) : String := ""

/-- filters._filter_by_method: case-insensitive method equality. -/
def filterByMethod (data : Exchange) (methodFilter : String) : Bool :=
  pyUpper data.method = pyUpper methodFilter

/-- filters._filter_by_url: bool(re.search(url_filter, url)); an invalid
    pattern raises re.error, which no caller catches. -/
def filterByUrl (data : Exchange) (urlFilter : String) : Except PyErr Bool :=
  reSearchStr urlFilter data.url

/-- filters._filter_by_operation: substring test against the absent
    operationName key. -/
def filterByOperation (data : Exchange) (operationFilter : String) : Bool :=
  pyIn operationFilter (dataGetOperationName data)

/-- filters._filter_by_status_code: string equality against
    str(inferredStatusCode). -/
def filterByStatusCode (data : Exchange) (statusFilter : String) : Bool :=
  pyStrInt data.inferredStatusCode = statusFilter

/-- filters._filter_by_scalar: substring test against the absent
    inferredScalarType key. -/
def filterByScalar (data : Exchange) (scalarFilter : String) : Bool :=
  pyIn scalarFilter (dataGetInferredScalarType data)

/-- filters._filter_by_coverage: substring containment. -/
def filterByCoverage (data : Exchange) (coverageFilter : String) : Bool :=
  pyIn coverageFilter data.coverage

/-- The try block of filters._filter_by_size: split the argument on the
    dash and convert both parts with int; none when any step raises
    ValueError (wrong number of parts or a non-integer part). -/
def sizeRange (sizeFilter : String) : Option (Int × Int) :=
  match pySplit sizeFilter '-' with
  | [a, b] =>
    (match pyInt a, pyInt b with
     | some minSize, some maxSize => some (minSize, maxSize)
     | _, _ => none)
  | _ => none

/-- filters._filter_by_size: an inclusive min-max range over
    len(str(responseBody)); any parse failure of the range means the
    criterion is ignored (True). -/
def filterBySize (data : Exchange) (sizeFilter : String) : Bool :=
  match sizeRange sizeFilter with
  | some mm =>
    let responseSize : Int := pyLen data.responseBody
    decide (mm.1 ≤ responseSize ∧ responseSize ≤ mm.2)
  | none => true

/-- filters._filter_by_content_type: the first content-type response
    header, cleaned, defaulting to the token unknown. -/
def filterByContentType (data : Exchange) (contentTypeFilter : String) : Bool :=
  let contentType :=
    match data.responseHeaders.find? (fun h => pyLower h.name = "content-type") with
    | some h =>
      (match h.values with
       | v0 :: _ => cleanContentType v0
       | [] => "unknown")
    | none => "unknown"
  pyIn contentTypeFilter contentType

/-- filters._filter_by_requester: substring containment. -/
def filterByRequester (data : Exchange) (requesterFilter : String) : Bool :=
  pyIn requesterFilter data.requester

/-- filters._filter_by_name (the endpoint key): read the name field of the
    JSON request body, fall back to the URL path.  A request body that is
    valid JSON but not an object raises AttributeError at the .get call;
    a non-string name raises TypeError at the containment test unless it
    is a list or dict, where Python membership applies. -/
def filterByName (data : Exchange) (nameFilter : String) : Except PyErr Bool :=
  let name0 : PyVal := .str "unknown"
  let step1 : Except PyErr PyVal :=
    match data.requestBody with
    | some body =>
      if body ≠ "" then
        match jsonLoads body with
        | some (.dict kvs) => .ok (pyDictGet kvs "name" (.str ""))
        | some _ => .error .attributeError
        | none => .ok name0
      else .ok name0
    | none => .ok name0
  match step1 with
  | .error e => .error e
  | .ok nameVal =>
    let nameVal2 : PyVal :=
      if pvIsStr nameVal "unknown" then .str (extractPathFromUrl data.url)
      else nameVal
    match nameVal2 with
    | .str s => .ok (pyIn nameFilter s)
    | .list xs => .ok (xs.any (fun x => pvIsStr x nameFilter))
    | .dict kvs => .ok (kvs.any (fun kv => kv.1 = nameFilter))
    | _ => .error .typeError

/-- The filter_functions dict of filters.apply_filters, in source order. -/
def filterFuncs : List (String × (Exchange → String → Except PyErr Bool)) :=
  [("method", fun d v => .ok (filterByMethod d v)),
   ("url", filterByUrl),
   ("operation", fun d v => .ok (filterByOperation d v)),
   ("status_code", fun d v => .ok (filterByStatusCode d v)),
   ("scalar", fun d v => .ok (filterByScalar d v)),
   ("coverage", fun d v => .ok (filterByCoverage d v)),
   ("size", fun d v => .ok (filterBySize d v)),
   ("content_type", fun d v => .ok (filterByContentType d v)),
   ("requester", fun d v => .ok (filterByRequester d v)),
   ("endpoint", filterByName)]

/-- The keys of the filter_functions dict. -/
def filterFuncKeys : List String :=
  filterFuncs.map (fun kf => kf.1)

/-- The loop body of filters.apply_filters over the criteria in order:
    keys outside the table are skipped, a False result returns False. -/
def applyFiltersGo (data : Exchange) : List (String × String) → Except PyErr Bool
  | [] => .ok true
  | (k, v) :: rest =>
    match filterFuncs.find? (fun kf => kf.1 = k) with
    | some kf =>
      (match applyFilterWithInversion kf.2 data v with
       | .ok true => applyFiltersGo data rest
       | .ok false => .ok false
       | .error e => .error e)
    | none => applyFiltersGo data rest

/-- filters.apply_filters: True when the record matches every recognized
    criterion; an empty criteria dict matches immediately. -/
def applyFilters (data : Exchange) (filters : List (String × String)) :
    Except PyErr Bool :=
  if filters.isEmpty then .ok true
  else applyFiltersGo data filters

/-- The record subset the commands build by calling apply_filters on each
    record in turn; a raised exception aborts the whole pass. -/
def filterExchanges (filters : List (String × String)) :
    List Exchange → Except PyErr (List Exchange)
  | [] => .ok []
  | d :: rest =>
    match applyFilters d filters with
    | .ok true => (filterExchanges filters rest).map (fun l => d :: l)
    | .ok false => filterExchanges filters rest
    | .error e => .error e

/-! ## Typed filter boundary (models.Filters) -/

/-- models.Filters: the typed filter parameters, every field optional. -/
structure Filters where
  method : Option String := none
  url : Option String := none
  status_code : Option String := none
  inferred_status_code : Option String := none
  coverage : Option String := none
  size : Option String := none
  content_type : Option String := none
  requester : Option String := none
  path : Option String := none
  deriving DecidableEq, Repr

/-- The field names of models.Filters (its model_fields), in declaration
    order. -/
def filtersModelFields : List String :=
  ["method", "url", "status_code", "inferred_status_code", "coverage",
   "size", "content_type", "requester", "path"]

/-- setattr(filters, key, value) for a key in model_fields. -/
def setFiltersField (f : Filters) (key value : String) : Filters :=
  if key = "method" then { f with method := some value }
  else if key = "url" then { f with url := some value }
  else if key = "status_code" then { f with status_code := some value }
  else if key = "inferred_status_code" then { f with inferred_status_code := some value }
  else if key = "coverage" then { f with coverage := some value }
  else if key = "size" then { f with size := some value }
  else if key = "content_type" then { f with content_type := some value }
  else if key = "requester" then { f with requester := some value }
  else if key = "path" then { f with path := some value }
  else f

/-- models.Filters.at_least_one_filter. -/
def Filters.atLeastOne (f : Filters) : Bool :=
  f.method.isSome || f.url.isSome || f.status_code.isSome ||
  f.inferred_status_code.isSome || f.coverage.isSome || f.size.isSome ||
  f.content_type.isSome || f.requester.isSome || f.path.isSome

/-- Read a quoted span up to the closing quote character. -/
def shlexQuoted (q : Char) : List Char → Option (List Char × List Char)
  | [] => none
  | c :: rest =>
    if c = q then some ([], rest)
    else (shlexQuoted q rest).map (fun p => (c :: p.1, p.2))

/-- shlex.split for the call sites: whitespace separates tokens, single or
    double quotes group text into the current token, and an unterminated
    quote raises ValueError.  Backslash escapes are outside the modelled
    subset of inputs. -/
def shlexGo (fuel : Nat) (cs : List Char) (cur : Option (List Char)) :
    Except PyErr (List String) :=
  match fuel with
  | 0 => .error .shlexError
  | fuel + 1 =>
    match cs with
    | [] =>
      (match cur with
       | some t => .ok [String.mk t]
       | none => .ok [])
    | c :: rest =>
      if c = ' ' ∨ c = '\t' ∨ c = '\n' ∨ c = '\r' then
        match cur with
        | some t =>
          (match shlexGo fuel rest none with
           | .ok toks => .ok (String.mk t :: toks)
           | .error e => .error e)
        | none => shlexGo fuel rest none
      else if c = '"' ∨ c = '\'' then
        match shlexQuoted c rest with
        | some (content, rest2) => shlexGo fuel rest2 (some (cur.getD [] ++ content))
        | none => .error .shlexError
      else shlexGo fuel rest (some (cur.getD [] ++ [c]))

/-- shlex.split(arg). -/
def shlexSplit (arg : String) : Except PyErr (List String) :=
  shlexGo (arg.data.length + 1) arg.data none

/-- One iteration of the loop in models.Filters.from_arg: a part without
    an equals sign is skipped; a recognized key is assigned; an invalid
    key is reported to the console and otherwise ignored.  The second
    component collects the reported invalid keys. -/
def fromArgStep (acc : Filters × List String) (part : String) : Filters × List String :=
  match pySplit1 part '=' with
  | (k, some v) =>
    if filtersModelFields.contains k then (setFiltersField acc.1 k v, acc.2)
    else (acc.1, acc.2 ++ [k])
  | (_, none) => acc

/-- models.Filters.from_arg: split the expression with shlex and process
    each key=value part; the reported invalid keys are returned alongside
    the filters. -/
def fromArg (arg : String) : Except PyErr (Filters × List String) :=
  match shlexSplit arg with
  | .ok parts => .ok (parts.foldl fromArgStep ({}, []))
  | .error e => .error e

/-! ## Ingestion (processor.py)

Archive entries arrive as pairs of entry name and decoded JSON object;
a required field absent from the object raises KeyError at its lookup.
The json.load text-level step is not separately modelled: no claim
depends on byte-level JSON failures of whole entries, which the same
per-entry except clause turns into the same per-entry failure. -/

/-- One raw scalar object of the inferredScalars array. -/
structure RawScalar where
  name : Option String := none
  kind : Option String := none
  confidence : Option Rat := none
  deriving DecidableEq, Repr

/-- One raw header object. -/
structure RawHeader where
  name : Option String := none
  values : Option (List String) := none
  deriving DecidableEq, Repr

/-- The decoded JSON object of one archive entry; none marks an absent
    key.  requestBody distinguishes an absent key from a JSON null. -/
structure RawEntry where
  name : Option String := none
  user : Option String := none
  requester : Option String := none
  inferredStatusCode : Option Int := none
  inferredScalars : Option (List RawScalar) := none
  requestHeaders : Option (List RawHeader) := none
  requestBody : Option (Option String) := none
  method : Option String := none
  url : Option String := none
  responseHeaders : Option (List RawHeader) := none
  responseBody : Option String := none
  responseStatusCode : Option Int := none
  scanId : Option String := none
  curl : Option String := none
  duration : Option Rat := none
  coverage : Option String := none
  in_schema : Option Bool := none
  deriving DecidableEq, Repr

/-- A required dict lookup: KeyError when the key is absent. -/
def getKey {α : Type} (o : Option α) : Except PyErr α :=
  match o with
  | some a => .ok a
  | none => .error .keyError

/-- The standard HTTP method tokens of http.HTTPMethod. -/
def httpMethods : List String :=
  ["CONNECT", "DELETE", "GET", "HEAD", "OPTIONS", "PATCH", "POST", "PUT", "TRACE"]

/-- HTTPMethod(s.upper()): ValueError on an unknown token. -/
def parseHTTPMethod (s : String) : Except PyErr String :=
  let u := pyUpper s
  if httpMethods.contains u then .ok u else .error .valueError

/-- pydantic validation of the Exchange constructor call in
    processor.process_zip.  The in_schema argument mirrors what the call
    passes for the required in_schema field; the source comments that
    argument out, so the call leaves it absent and validation fails. -/
def pydanticExchange (exchangeId path user requester : String)
    (inferredStatusCode : Int) (inferredScalars : List InferredScalar)
    (requestHeaders : List ExchangeParameter) (requestBody : Option String)
    (method url : String) (responseHeaders : List ExchangeParameter)
    (responseBody : String) (responseStatusCode : Int)
    (scanId curl : String) (duration : Rat) (coverage : String)
    (in_schemaArg : Option Bool) : Except PyErr Exchange :=
  match in_schemaArg with
  | none => .error .validationError
  | some b =>
    .ok { exchangeId := exchangeId, path := path,
          requestHeaders := requestHeaders, requestBody := requestBody,
          method := method, url := url,
          responseHeaders := responseHeaders, responseBody := responseBody,
          responseStatusCode := responseStatusCode, scanId := scanId,
          curl := curl, duration := duration, coverage := coverage,
          user := user, requester := requester,
          inferredStatusCode := inferredStatusCode,
          inferredScalars := inferredScalars, in_schema := b }

/-- The body of the per-entry try block of processor.process_zip: the
    keyword arguments are evaluated in source order, then the Exchange is
    validated.  The in_schema mapping is commented out in the source, so
    none is passed through to validation. -/
def processEntry (fileName : String) (j : RawEntry) : Except PyErr Exchange := do
  let nm ← getKey j.name
  let user ← getKey j.user
  let requester ← getKey j.requester
  let inferredStatusCode ← getKey j.inferredStatusCode
  let rawScalars ← getKey j.inferredScalars
  let inferredScalars ← rawScalars.mapM (fun s => do
    let sName ← getKey s.name
    let sKind ← getKey s.kind
    let sConf ← getKey s.confidence
    pure { kind := sKind, name := sName, confidence := sConf : InferredScalar })
  let rawReqHeaders ← getKey j.requestHeaders
  let requestHeaders ← rawReqHeaders.mapM (fun h => do
    let hName ← getKey h.name
    let hValues ← getKey h.values
    pure { name := hName, values := hValues, loc := .header : ExchangeParameter })
  let requestBody ← getKey j.requestBody
  let methodRaw ← getKey j.method
  let method ← parseHTTPMethod methodRaw
  let url ← getKey j.url
  let rawRespHeaders ← getKey j.responseHeaders
  let responseHeaders ← rawRespHeaders.mapM (fun h => do
    let hName ← getKey h.name
    let hValues ← getKey h.values
    pure { name := hName, values := hValues, loc := .header : ExchangeParameter })
  let responseBody ← getKey j.responseBody
  let responseStatusCode ← getKey j.responseStatusCode
  let scanId ← getKey j.scanId
  let curl ← getKey j.curl
  let duration ← getKey j.duration
  let coverage ← getKey j.coverage
  pydanticExchange fileName nm user requester inferredStatusCode
    inferredScalars requestHeaders requestBody method url responseHeaders
    responseBody responseStatusCode scanId curl duration coverage none

/-- processor.process_zip over the decoded archive: entries whose name
    does not end in .json are skipped; a failing entry is reported (its
    name is appended to the failure list) and the batch continues; a
    successful entry is stored by add_exchange. -/
def processZip (entries : List (String × RawEntry)) :
    List (String × Exchange) × List String :=
  entries.foldl (fun acc ent =>
    if pyEndsWith ent.1 ".json" then
      match processEntry ent.1 ent.2 with
      | .ok ex => (addExchange acc.1 ex, acc.2)
      | .error _ => (acc.1, acc.2 ++ [ent.1])
    else acc) ([], [])

/-! ## Statement-level helpers and fixtures -/

/-- A record passes a filter dict when apply_filters returns True without
    raising. -/
def matchesFilter (data : Exchange) (filters : List (String × String)) : Bool :=
  match applyFilters data filters with
  | .ok true => true
  | _ => false

/-- Set difference A minus B on record lists. -/
def listDiff (A B : List Exchange) : List Exchange :=
  A.filter (fun x => !(B.contains x))

/-- The filter key set asserted by the specification sentence on
    recognized filter keys, kept only for comparison against the key sets
    the source recognizes. -/
def claimedFilterKeys : List String :=
  ["method", "url", "status_code", "inferred_status_code", "coverage",
   "size", "content_type", "requester", "path", "in_schema"]

/-- The derived content type as the amended claim describes it: the first
    response header named content-type (case-insensitively) decides the
    result; it is the exact token application/json when that exact string
    is a member of the values of that header, otherwise the comma joined
    values unchanged; no such header means no content type. -/
def contentTypeSpec (e : Exchange) : Option String :=
  match (e.responseHeaders.filter (fun h => pyLower h.name = "content-type")).head? with
  | some h =>
    some (if "application/json" ∈ h.values then "application/json"
          else pyJoin ", " h.values)
  | none => none

/-- A baseline record fixture. -/
def exA : Exchange :=
  { exchangeId := "a.json", path := "/login",
    requestHeaders := [], requestBody := none,
    method := "GET", url := "/login?x=1",
    responseHeaders := [], responseBody := "abc", responseStatusCode := 200,
    scanId := "s", curl := "c", duration := 1,
    coverage := "covered", user := "u", requester := "oracle",
    inferredStatusCode := 200, inferredScalars := [], in_schema := true }

/-- A second record fixture with a different method. -/
def exB : Exchange :=
  { exA with exchangeId := "b.json", method := "POST", url := "/logout?x=2" }

/-- A record whose content-type header value is an application/json
    variant carrying a charset parameter. -/
def exCT : Exchange :=
  { exA with responseHeaders :=
      [{ name := "content-type",
         values := ["application/json; charset=utf-8"], loc := .header }] }

/-- The round-trip fixture of the parameter-extraction scenario. -/
def exRT : Exchange :=
  { exA with url := "/users/42?active=true", path := "/users/\x7bid\x7d" }

/-- A record whose URL has no query string. -/
def exNoQuery : Exchange :=
  { exA with url := "/login" }

/-- A fully populated raw archive entry (every required field present,
    including an in_schema value in the JSON). -/
def goodRaw : RawEntry :=
  { name := some "/login", user := some "u", requester := some "oracle",
    inferredStatusCode := some 200, inferredScalars := some [],
    requestHeaders := some [], requestBody := some none,
    method := some "post", url := some "/login",
    responseHeaders := some [], responseBody := some "ok",
    responseStatusCode := some 200, scanId := some "s", curl := some "c",
    duration := some 1, coverage := some "covered", in_schema := some true }

/-- A raw archive entry missing the required name field. -/
def badRaw : RawEntry :=
  { goodRaw with name := none }

/-- A second well-formed raw entry, distinguishable from goodRaw. -/
def goodRaw2 : RawEntry :=
  { goodRaw with responseBody := some "second" }

/-- Two distinct records sharing one exchange id. -/
def exDupA : Exchange :=
  { exA with exchangeId := "dup.json" }

/-- The later record carrying the duplicated exchange id. -/
def exDupB : Exchange :=
  { exB with exchangeId := "dup.json" }

deriving instance DecidableEq for Except

/-! ## Helper lemmas -/

theorem pyStartsWith_marker (v : String) : pyStartsWith ("!" ++ v) "!" = true := by
  simp [pyStartsWith, String.data_append, List.isPrefixOf]

theorem pyDropOne_marker (v : String) : pyDropOne ("!" ++ v) = v := by
  cases v with
  | mk d => simp [pyDropOne, String.data_append]

theorem isInvertedFilter_marker (v : String) : isInvertedFilter ("!" ++ v) = (true, v) := by
  simp [isInvertedFilter, pyStartsWith_marker, pyDropOne_marker]

theorem isInvertedFilter_plain (v : String) (h : pyStartsWith v "!" = false) :
    isInvertedFilter v = (false, v) := by
  simp [isInvertedFilter, h]

theorem awi_plain (f : Exchange → String → Except PyErr Bool) (d : Exchange)
    (v : String) (h : pyStartsWith v "!" = false) :
    applyFilterWithInversion f d v = f d v := by
  unfold applyFilterWithInversion
  rw [isInvertedFilter_plain v h]
  dsimp only
  cases hf : f d v with
  | ok b => rfl
  | error e => rfl

theorem awi_marker (f : Exchange → String → Except PyErr Bool) (d : Exchange)
    (v : String) :
    applyFilterWithInversion f d ("!" ++ v) = Except.map (fun b => !b) (f d v) := by
  unfold applyFilterWithInversion
  rw [isInvertedFilter_marker]
  dsimp only
  cases hf : f d v with
  | ok b => rfl
  | error e => rfl

theorem find?_filterFuncs (k : String) (hk : k ∈ filterFuncKeys) :
    ∃ f, filterFuncs.find? (fun x => x.1 = k) = some (k, f) := by
  unfold filterFuncKeys at hk
  obtain ⟨kf, hmem, hfst⟩ := List.mem_map.mp hk
  have hsome : (filterFuncs.find? (fun x => x.1 = k)).isSome := by
    rw [List.find?_isSome]
    exact ⟨kf, hmem, by simp [hfst]⟩
  obtain ⟨res, hres⟩ := Option.isSome_iff_exists.mp hsome
  have hp := List.find?_some hres
  simp only [decide_eq_true_eq] at hp
  refine ⟨res.2, ?_⟩
  rw [hres]
  cases res with
  | mk a b =>
    simp only at hp
    rw [hp]

theorem applyFilters_single_found (d : Exchange) (k v : String)
    (f : Exchange → String → Except PyErr Bool)
    (hf : filterFuncs.find? (fun x => x.1 = k) = some (k, f)) :
    applyFilters d [(k, v)] = applyFilterWithInversion f d v := by
  have h1 : applyFilters d [(k, v)] = applyFiltersGo d [(k, v)] := rfl
  rw [h1]
  unfold applyFiltersGo
  rw [hf]
  dsimp only
  cases hawi : applyFilterWithInversion f d v with
  | ok b =>
    cases b with
    | true => rfl
    | false => rfl
  | error e => rfl

theorem applyFilters_single_missing (d : Exchange) (k v : String)
    (hf : filterFuncs.find? (fun x => x.1 = k) = none) :
    applyFilters d [(k, v)] = .ok true := by
  have h1 : applyFilters d [(k, v)] = applyFiltersGo d [(k, v)] := rfl
  rw [h1]
  unfold applyFiltersGo
  rw [hf]
  rfl

theorem applyFilters_invert (d : Exchange) (k v : String) (b : Bool)
    (hk : k ∈ filterFuncKeys) (hv : pyStartsWith v "!" = false)
    (hb : applyFilters d [(k, v)] = .ok b) :
    applyFilters d [(k, "!" ++ v)] = .ok (!b) := by
  obtain ⟨f, hf⟩ := find?_filterFuncs k hk
  rw [applyFilters_single_found d k v f hf] at hb
  rw [awi_plain f d v hv] at hb
  rw [applyFilters_single_found d k ("!" ++ v) f hf, awi_marker, hb]
  rfl

theorem matchesFilter_of_ok (d : Exchange) (fs : List (String × String)) (b : Bool)
    (hb : applyFilters d fs = .ok b) : matchesFilter d fs = b := by
  unfold matchesFilter
  rw [hb]
  cases b <;> rfl

theorem filterExchanges_matches (k v : String) (R : List Exchange)
    (hok : ∀ d ∈ R, ∃ b, applyFilters d [(k, v)] = .ok b) :
    filterExchanges [(k, v)] R = .ok (R.filter (fun d => matchesFilter d [(k, v)])) := by
  induction R with
  | nil => rfl
  | cons d rest ih =>
    obtain ⟨b, hb⟩ := hok d (List.mem_cons_self d rest)
    have hrest := ih (fun x hx => hok x (List.mem_cons_of_mem d hx))
    have hmatch := matchesFilter_of_ok d [(k, v)] b hb
    cases b with
    | true => simp [filterExchanges, hb, hrest, List.filter_cons, hmatch, Except.map]
    | false => simp [filterExchanges, hb, hrest, List.filter_cons, hmatch]

theorem filterExchanges_inverted (k v : String) (R : List Exchange)
    (hk : k ∈ filterFuncKeys) (hv : pyStartsWith v "!" = false)
    (hok : ∀ d ∈ R, ∃ b, applyFilters d [(k, v)] = .ok b) :
    filterExchanges [(k, "!" ++ v)] R =
      .ok (R.filter (fun d => !(matchesFilter d [(k, v)]))) := by
  induction R with
  | nil => rfl
  | cons d rest ih =>
    obtain ⟨b, hb⟩ := hok d (List.mem_cons_self d rest)
    have hrest := ih (fun x hx => hok x (List.mem_cons_of_mem d hx))
    have hinv := applyFilters_invert d k v b hk hv hb
    have hmatch := matchesFilter_of_ok d [(k, v)] b hb
    cases b with
    | true => simp [filterExchanges, hinv, hrest, List.filter_cons, hmatch]
    | false => simp [filterExchanges, hinv, hrest, List.filter_cons, hmatch, Except.map]

theorem filter_contains_eq (R : List Exchange) (p : Exchange → Bool) (x : Exchange)
    (hx : x ∈ R) : (R.filter p).contains x = p x := by
  simp [List.contains, List.elem_eq_mem, List.mem_filter, hx]

theorem listDiff_filter (R : List Exchange) (p : Exchange → Bool) :
    listDiff R (R.filter p) = R.filter (fun x => !(p x)) := by
  unfold listDiff
  apply List.filter_congr
  intro x hx
  rw [filter_contains_eq R p x hx]

theorem splitC_ne_nil (sep : Char) (cs : List Char) : splitC sep cs ≠ [] := by
  cases cs with
  | nil => simp [splitC]
  | cons c rest =>
    unfold splitC
    cases h : splitC sep rest with
    | nil => simp
    | cons g gs =>
      dsimp only
      split <;> simp

theorem two_le_splitC_iff (sep : Char) (cs : List Char) :
    2 ≤ (splitC sep cs).length ↔ cs.contains sep = true := by
  induction cs with
  | nil => simp [splitC]
  | cons c rest ih =>
    cases h : splitC sep rest with
    | nil => exact absurd h (splitC_ne_nil sep rest)
    | cons g gs =>
      rw [h] at ih
      by_cases hc : c = sep
      · subst hc
        simp [splitC, h, List.contains_cons]
      · have hco : (c :: rest).contains sep = rest.contains sep := by
          simp only [List.contains_cons]
          have hbe : (sep == c) = false := by
            simp only [beq_eq_false_iff_ne, ne_eq]
            intro hh
            exact hc hh.symm
          rw [hbe, Bool.false_or]
        rw [hco]
        unfold splitC
        rw [h]
        dsimp only
        rw [if_neg hc]
        simpa using ih

theorem find?_eq_head?_filter {α : Type} (p : α → Bool) (l : List α) :
    l.find? p = (l.filter p).head? := by
  induction l with
  | nil => rfl
  | cons a t ih =>
    by_cases h : p a
    · rw [List.find?_cons_of_pos t h, List.filter_cons, if_pos h]
      rfl
    · rw [List.find?_cons_of_neg t h, List.filter_cons, if_neg h, ih]

/-! ## Claim theorems -/

/-- Claim C1: applying the filter engine with an empty criteria mapping
    accepts every record, so the filtered record set equals the input
    record set unchanged. -/
theorem C1_empty_filter_identity :
    (∀ d : Exchange, applyFilters d [] = Except.ok true) ∧
    (∀ R : List Exchange, filterExchanges [] R = Except.ok R) := by
  constructor
  · intro d
    rfl
  · intro R
    induction R with
    | nil => rfl
    | cons d rest ih =>
      have hd : applyFilters d [] = Except.ok true := rfl
      simp [filterExchanges, hd, ih, Except.map]

/-- Claim C2: for a single-criterion filter on a key the engine
    recognizes, whose value does not itself begin with the negation
    marker, and whose evaluation raises no exception on the record set,
    the set matched by the inverted criterion (the value prefixed with
    the marker) is exactly the set complement within R of the records
    matched by the plain criterion. -/
theorem C2_inversion_is_complement (k v : String) (R : List Exchange)
    (hk : k ∈ filterFuncKeys) (hv : pyStartsWith v "!" = false)
    (hok : ∀ d ∈ R, ∃ b, applyFilters d [(k, v)] = Except.ok b) :
    filterExchanges [(k, v)] R =
      Except.ok (R.filter (fun d => matchesFilter d [(k, v)])) ∧
    filterExchanges [(k, "!" ++ v)] R =
      Except.ok (listDiff R (R.filter (fun d => matchesFilter d [(k, v)]))) := by
  constructor
  · exact filterExchanges_matches k v R hok
  · rw [listDiff_filter]
    exact filterExchanges_inverted k v R hk hv hok

/-- Concrete instance of claim C2 at the method key on a two-record set. -/
theorem C2_inversion_witness :
    ("method" ∈ filterFuncKeys) ∧ pyStartsWith "GET" "!" = false ∧
    (filterExchanges [("method", "GET")] [exA, exB] =
       Except.ok ([exA, exB].filter (fun d => matchesFilter d [("method", "GET")])) ∧
     filterExchanges [("method", "!" ++ "GET")] [exA, exB] =
       Except.ok (listDiff [exA, exB]
         ([exA, exB].filter (fun d => matchesFilter d [("method", "GET")])))) :=
  ⟨by decide, by decide,
   C2_inversion_is_complement "method" "GET" [exA, exB] (by decide) (by decide)
     (by
       intro d hd
       rcases List.mem_cons.mp hd with h | h
       · exact ⟨true, by rw [h]; rfl⟩
       · rcases List.mem_cons.mp h with h2 | h2
         · exact ⟨false, by rw [h2]; rfl⟩
         · exact absurd h2 (List.not_mem_nil d))⟩

/-- Claim C3 counterexample: a url criterion whose value is not a valid
    regular expression does not degrade to always-true: apply_filters
    raises the regex error and the whole filter pass is rejected. -/
theorem C3_invalid_url_counterexample :
    applyFilters exA [("url", "[")] = Except.error PyErr.regexError ∧
    filterExchanges [("url", "[")] [exA] = Except.error PyErr.regexError ∧
    applyFilters exA [("url", "[")] ≠ Except.ok true := by
  refine ⟨by decide, by decide, by decide⟩

/-- Claim C3 amended: a malformed size range degrades to always-true for
    the size criterion, but a url value outside the valid pattern
    language raises the regex error through apply_filters (the value
    taken as written, not starting with the negation marker). -/
theorem C3_amended_error_policy (d : Exchange) (s p : String)
    (hp : pyStartsWith p "!" = false) :
    (sizeRange s = none → filterBySize d s = true) ∧
    (∀ e, reParse p = Except.error e →
       applyFilters d [("url", p)] = Except.error e) := by
  constructor
  · intro hs
    unfold filterBySize
    rw [hs]
  · intro e he
    have hf : filterFuncs.find? (fun x => x.1 = "url") = some ("url", filterByUrl) := by
      rfl
    rw [applyFilters_single_found d "url" p filterByUrl hf]
    rw [awi_plain filterByUrl d p hp]
    unfold filterByUrl reSearchStr
    rw [he]

/-- Concrete instance of amended claim C3. -/
theorem C3_amended_witness :
    sizeRange "nope" = none ∧ filterBySize exA "nope" = true ∧
    reParse "[" = Except.error PyErr.regexError ∧
    applyFilters exA [("url", "[")] = Except.error PyErr.regexError :=
  ⟨by decide,
   (C3_amended_error_policy exA "nope" "[" (by decide)).1 (by decide),
   by decide,
   (C3_amended_error_policy exA "nope" "[" (by decide)).2 PyErr.regexError (by decide)⟩

/-- Claim C4 counterexample: in_schema, although in the key set the
    claim asserts, is recognized by neither the typed Filters boundary
    nor the apply_filters table; and the key operation, outside the
    asserted set, is recognized by the table and does exclude a record. -/
theorem C4_key_set_counterexample :
    ("in_schema" ∈ claimedFilterKeys) ∧
    ("in_schema" ∉ filterFuncKeys) ∧
    ("in_schema" ∉ filtersModelFields) ∧
    ("operation" ∉ claimedFilterKeys) ∧
    ("operation" ∈ filterFuncKeys) ∧
    applyFilters exA [("operation", "zzz")] = Except.ok false := by
  refine ⟨by decide, by decide, by decide, by decide, by decide, by decide⟩

/-- Claim C4 amended: the typed boundary models.Filters.from_arg
    recognizes exactly the nine keys of filtersModelFields, assigning a
    recognized key and reporting then ignoring any other key; the dict
    engine apply_filters silently ignores any key outside its own table,
    never excluding a record for it and never failing. -/
theorem C4_amended_recognized_keys :
    (∀ (f : Filters) (r : List String) (part k v : String),
       pySplit1 part '=' = (k, some v) →
       ((k ∈ filtersModelFields →
           fromArgStep (f, r) part = (setFiltersField f k v, r)) ∧
        (k ∉ filtersModelFields →
           fromArgStep (f, r) part = (f, r ++ [k])))) ∧
    (∀ (d : Exchange) (k v : String), k ∉ filterFuncKeys →
       applyFilters d [(k, v)] = Except.ok true) := by
  constructor
  · intro f r part k v hsplit
    constructor
    · intro hk
      unfold fromArgStep
      rw [hsplit]
      have hc : filtersModelFields.contains k = true := by
        simp [List.contains, List.elem_eq_mem, hk]
      simp [hc]
      exact hk
    · intro hk
      unfold fromArgStep
      rw [hsplit]
      have hc : filtersModelFields.contains k = false := by
        simp [List.contains, List.elem_eq_mem, hk]
      simp [hc]
      exact hk
  · intro d k v hk
    apply applyFilters_single_missing
    rw [List.find?_eq_none]
    intro x hx
    simp only [decide_eq_true_eq]
    intro heq
    exact hk (by rw [← heq]; exact List.mem_map.mpr ⟨x, hx, rfl⟩)

/-- Concrete instance of amended claim C4 at the in_schema key. -/
theorem C4_amended_witness :
    pySplit1 "in_schema=true" '=' = ("in_schema", some "true") ∧
    fromArgStep ({}, []) "in_schema=true" = ({}, ["in_schema"]) ∧
    applyFilters exA [("in_schema", "true")] = Except.ok true :=
  ⟨by decide,
   (C4_amended_recognized_keys.1 {} [] "in_schema=true" "in_schema" "true"
      (by decide)).2 (by decide),
   C4_amended_recognized_keys.2 exA "in_schema" "true" (by decide)⟩

/-- Claim C5: a well-formed min-max size criterion passes exactly the
    records whose response body length lies in the inclusive range. -/
theorem C5_size_range_inclusive (d : Exchange) (s a b : String) (mn mx : Int)
    (hsplit : pySplit s '-' = [a, b]) (ha : pyInt a = some mn)
    (hb : pyInt b = some mx) :
    filterBySize d s =
      decide (mn ≤ (pyLen d.responseBody : Int) ∧
              (pyLen d.responseBody : Int) ≤ mx) := by
  unfold filterBySize sizeRange
  rw [hsplit]
  dsimp only
  rw [ha, hb]

/-- Concrete boundary instances of claim C5 for the range 3-5: lengths 3
    and 5 pass, lengths 2 and 6 fail. -/
theorem C5_size_range_witness :
    filterBySize { exA with responseBody := "abc" } "3-5" = true ∧
    filterBySize { exA with responseBody := "abcde" } "3-5" = true ∧
    filterBySize { exA with responseBody := "ab" } "3-5" = false ∧
    filterBySize { exA with responseBody := "abcdef" } "3-5" = false :=
  ⟨(C5_size_range_inclusive { exA with responseBody := "abc" } "3-5" "3" "5" 3 5
      (by decide) (by decide) (by decide)).trans (by decide),
   (C5_size_range_inclusive { exA with responseBody := "abcde" } "3-5" "3" "5" 3 5
      (by decide) (by decide) (by decide)).trans (by decide),
   (C5_size_range_inclusive { exA with responseBody := "ab" } "3-5" "3" "5" 3 5
      (by decide) (by decide) (by decide)).trans (by decide),
   (C5_size_range_inclusive { exA with responseBody := "abcdef" } "3-5" "3" "5" 3 5
      (by decide) (by decide) (by decide)).trans (by decide)⟩

/-- Claim C6 under the code as written: even a fully well-formed entry
    fails ingestion, because models.Exchange requires in_schema while
    processor.process_zip never passes it (the argument is commented
    out), so pydantic validation rejects every constructed record: the
    claimed one-good-one-bad archive yields zero records and two failures
    instead of one record and one failure.  The empty-archive conjunct
    holds as claimed. -/
theorem C6_ingestion_validation_defect :
    processZip [] = ([], []) ∧
    processEntry "good.json" goodRaw = Except.error PyErr.validationError ∧
    processZip [("good.json", goodRaw), ("bad.json", badRaw)] =
      ([], ["good.json", "bad.json"]) := by
  refine ⟨rfl, by decide, by decide⟩

/-- Claim C7 counterexample: a content-type value that is an
    application/json variant carrying a charset parameter does not
    collapse: the derived content type keeps the variant text. -/
theorem C7_content_type_counterexample :
    pyStartsWith "application/json; charset=utf-8" "application/json" = true ∧
    Exchange.contentType exCT = some "application/json; charset=utf-8" ∧
    Exchange.contentType exCT ≠ some "application/json" := by
  refine ⟨by decide, by decide, by decide⟩

/-- Claim C7 amended: the derived content type of a record is decided by
    the first content-type response header: it is exactly the token
    application/json when that exact string is a member of the values of
    that header, otherwise the comma joined values unchanged; it is
    absent when no content-type header exists. -/
theorem C7_amended_content_type (e : Exchange) :
    e.contentType = contentTypeSpec e := by
  unfold Exchange.contentType contentTypeSpec
  rw [← find?_eq_head?_filter]
  cases hf : e.responseHeaders.find? (fun h => pyLower h.name = "content-type") with
  | none => rfl
  | some h =>
    dsimp only
    by_cases hm : "application/json" ∈ h.values
    · have hc : h.values.contains "application/json" = true := by
        simp [List.contains, List.elem_eq_mem, hm]
      simp [hc, hm]
    · have hc : h.values.contains "application/json" = false := by
        simp [List.contains, List.elem_eq_mem, hm]
      simp [hc, hm]

/-- Claim C8: on the record with url /users/42?active=true and template
    path /users/(id in braces), the derived path parameters are exactly
    id=42 and the derived query parameters exactly active=true. -/
theorem C8_parameter_roundtrip :
    Exchange.pathParams exRT =
      [{ name := "id", values := ["42"], loc := ParamLocation.path }] ∧
    Exchange.queryParams exRT =
      Except.ok [{ name := "active", values := ["true"], loc := ParamLocation.query }] := by
  refine ⟨by decide, by decide⟩

/-- Claim C9 under the code as written: the store primitive add_exchange
    does implement last-write-wins for a duplicated id, but after
    ingestion no record is stored at all: both duplicate entries fail
    pydantic validation for the missing in_schema argument, so the record
    set is empty rather than holding the later record once. -/
theorem C9_duplicate_id_ingestion :
    addExchange (addExchange [] exDupA) exDupB = [("dup.json", exDupB)] ∧
    (addExchange (addExchange [] exDupA) exDupB).length = 1 ∧
    processZip [("dup.json", goodRaw), ("dup.json", goodRaw2)] =
      ([], ["dup.json", "dup.json"]) := by
  refine ⟨by decide, by decide, by decide⟩

/-- Claim C10: queryParams is partial on the record type: with a question
    mark in the url it returns the pairs read from the second component
    of the question-mark split, without one it raises IndexError instead
    of returning an empty list. -/
theorem C10_queryParams_partiality (e : Exchange) :
    (e.url.data.contains '?' = true →
       Exchange.queryParams e =
         Except.ok (queryPairs (((pySplit e.url '?').get? 1).getD ""))) ∧
    (e.url.data.contains '?' = false →
       Exchange.queryParams e = Except.error PyErr.indexError) := by
  constructor
  · intro h
    have hlen : 2 ≤ (pySplit e.url '?').length := by
      unfold pySplit
      rw [List.length_map]
      exact (two_le_splitC_iff '?' e.url.data).mpr h
    cases hq : (pySplit e.url '?').get? 1 with
    | none =>
      exfalso
      have hn := List.get?_eq_none.mp hq
      omega
    | some q =>
      unfold Exchange.queryParams
      rw [hq]
      rfl
  · intro h
    have hlen : (pySplit e.url '?').length ≤ 1 := by
      unfold pySplit
      rw [List.length_map]
      by_contra hcon
      push_neg at hcon
      have h2 : 2 ≤ (splitC '?' e.url.data).length := hcon
      rw [two_le_splitC_iff '?' e.url.data] at h2
      rw [h] at h2
      exact Bool.false_ne_true h2
    unfold Exchange.queryParams
    rw [List.get?_eq_none.mpr hlen]

/-- Concrete instances of claim C10: a url with a query string succeeds,
    a url without one raises IndexError. -/
theorem C10_queryParams_witness :
    exRT.url.data.contains '?' = true ∧
    Exchange.queryParams exRT =
      Except.ok (queryPairs (((pySplit exRT.url '?').get? 1).getD "")) ∧
    exNoQuery.url.data.contains '?' = false ∧
    Exchange.queryParams exNoQuery = Except.error PyErr.indexError :=
  ⟨by decide, (C10_queryParams_partiality exRT).1 (by decide), by decide,
   (C10_queryParams_partiality exNoQuery).2 (by decide)⟩

end EL



